import Mathlib

/-!
Shallow embedding of the drain repository's aggregation and ranking-metrics
code (src/aggregate.py and src/metrics.py), together with theorems settling
the specification claims about it.

Modelling conventions:
* pandas/numpy float values are modelled by `PVal`: a rational number,
  positive or negative infinity, or NaN (the missing value).  Division of
  two rationals follows pandas semantics: `a / 0` is `+inf` for `a > 0`,
  `-inf` for `a < 0`, and NaN only for `0 / 0`.
* a dataframe row is a total function from column names to rationals; the
  claims under verification only resolve numerators/denominators that are
  existing columns, so the `ValueError` branch of `__series` (unresolvable
  string attribute) is not exercised and rows are kept total.
* Python exceptions become `Except` errors carrying the relevant data.
* numpy `argsort` is embedded as a stable insertion sort on the score;
  numpy's default quicksort is not stable, so tie order among equal scores
  is an embedding choice (the claims' concrete inputs have distinct scores).
-/

namespace Drain

/-- A pandas cell value: a rational, an infinity, or NaN (missing). -/
inductive PVal where
  | val (q : ℚ)
  | pinf
  | ninf
  | nan
deriving DecidableEq, Repr

/-- Division of pandas numeric series values: division by zero yields an
infinity of the numerator's sign, and NaN only when the numerator is zero. -/
def pdiv (a b : ℚ) : PVal :=
  if b = 0 then
    if 0 < a then PVal.pinf else if a < 0 then PVal.ninf else PVal.nan
  else PVal.val (a / b)

/-- A dataframe row: a total assignment of rational values to column names. -/
def Row : Type := String → ℚ

/-- Aggregation functions appearing in an aggregate spec.  The claims under
verification use only `func='sum'`, the source's default. -/
inductive AggFunc where
  | sum
deriving DecidableEq, Repr

/-- Apply an aggregation function to the values of one group. -/
def AggFunc.apply : AggFunc → List ℚ → ℚ
  | AggFunc.sum, l => l.sum

/-- One entry of the `columns` dict passed to `aggregate`: optional numerator
column (absent means a column of ones), optional denominator column, optional
`func` (absent means `'sum'`) and optional `denominator_func` (absent means
`func`). -/
structure Agg where
  numerator : Option String
  denominator : Option String
  func : Option AggFunc
  denominator_func : Option AggFunc
deriving DecidableEq, Repr

/-- The `func` of an agg spec after the source's `'sum'` default is filled in. -/
def aggFuncOf (a : Agg) : AggFunc := a.func.getD AggFunc.sum

/-- The `denominator_func` of an agg spec, defaulting to its `func`. -/
def denFuncOf (a : Agg) : AggFunc := a.denominator_func.getD (aggFuncOf a)

/-- `__series` restricted to the column-reference case used by the claims. -/
def seriesOf (df : List Row) (attr : String) : List ℚ :=
  df.map (fun r => r attr)

/-- Elementwise product of two aligned series (`numerator *= weight`). -/
def mulSeries (a b : List ℚ) : List ℚ :=
  (a.zip b).map (fun p => p.1 * p.2)

/-- The per-row numerator series of one metric: the numerator column (or the
all-ones series `np.ones(len(df))` when absent), multiplied elementwise by
the weight column when a weight is supplied. -/
def numeratorSeries (df : List Row) (weight : Option String) (a : Agg) : List ℚ :=
  let base : List ℚ :=
    match a.numerator with
    | some c => seriesOf df c
    | none => df.map (fun _ => (1 : ℚ))
  match weight with
  | some w => mulSeries base (seriesOf df w)
  | none => base

/-- The per-row denominator series of one metric (column `c`), multiplied
elementwise by the weight column when a weight is supplied. -/
def denominatorSeries (df : List Row) (weight : Option String) (c : String) : List ℚ :=
  match weight with
  | some w => mulSeries (seriesOf df c) (seriesOf df w)
  | none => seriesOf df c

/-- The rows of the group with key `k` under grouping column `g`. -/
def groupRows (df : List Row) (g : String) (k : ℚ) : List Row :=
  df.filter (fun r => decide (r g = k))

/-- The group keys produced by `df.groupby(g)`: the distinct values of the
grouping column, in ascending order (pandas sorts group keys by default). -/
def groupKeys (df : List Row) (g : String) : List ℚ :=
  List.insertionSort (fun a b => a ≤ b) ((df.map (fun r => r g)).dedup)

/-- The aggregated output value of one metric for the group with key `k`.
The source builds the per-row numerator/denominator columns on the whole
frame and then lets `groupby(...).agg` reduce them per group; since those
columns are computed row-wise, this equals reducing the series of the
group's own rows, which is how it is written here. -/
def metricGrouped (df : List Row) (weight : Option String) (g : String) (a : Agg)
    (k : ℚ) : PVal :=
  let grp := groupRows df g k
  let n := (aggFuncOf a).apply (numeratorSeries grp weight a)
  match a.denominator with
  | some c => pdiv n ((denFuncOf a).apply (denominatorSeries grp weight c))
  | none => PVal.val n

/-- The output column of one metric when `index is None`: the source skips
`groupby` entirely (`df3 = df2`), so each output row is the per-row
numerator, or the per-row numerator/denominator ratio. -/
def metricUngrouped (df : List Row) (weight : Option String) (a : Agg) : List PVal :=
  let nums := numeratorSeries df weight a
  match a.denominator with
  | some c =>
      ((nums.zip (denominatorSeries df weight c)).map (fun p => pdiv p.1 p.2))
  | none => nums.map PVal.val

/-- `aggregate(df, columns, weight, index)` of src/aggregate.py, for a single
optional grouping column.  Returns the output index (the sorted group keys
when grouping, the original positions otherwise) and one named output column
per metric, in declaration order. -/
def aggregate (df : List Row) (columns : List (String × Agg)) (weight : Option String)
    (index : Option String) : List ℚ × List (String × List PVal) :=
  match index with
  | none =>
      ((List.range df.length).map (fun i => (i : ℚ)),
       columns.map (fun ca => (ca.1, metricUngrouped df weight ca.2)))
  | some g =>
      let ks := groupKeys df g
      (ks, columns.map (fun ca => (ca.1, ks.map (metricGrouped df weight g ca.2))))

/-- `censor(df, date_column, end_date, delta)` of src/aggregate.py: keep rows
with `date_column < end_date`, and additionally `date_column >= end_date - delta`
when `delta` is not `None`.  Dates and window widths are modelled as rationals,
with the calendar subtraction `end_date - delta` as rational subtraction. -/
def censor (df : List Row) (date_column : String) (end_date : ℚ)
    (delta : Option ℚ) : List Row :=
  let df1 := df.filter (fun r => decide (r date_column < end_date))
  match delta with
  | some d => df1.filter (fun r => decide (end_date - d ≤ r date_column))
  | none => df1

/-- The `delta_chars` dict of src/aggregate.py: unit character to
relativedelta keyword.  Note that it declares `'w'` for weeks. -/
def delta_chars (c : Char) : Option String :=
  if c = 'y' then some "years"
  else if c = 'm' then some "months"
  else if c = 'w' then some "weeks"
  else if c = 'd' then some "days"
  else if c = 'h' then some "hours"
  else if c = 'M' then some "minutes"
  else if c = 's' then some "seconds"
  else if c = 'u' then some "microseconds"
  else none

/-- The unit characters accepted by `delta_regex`, i.e. the alternation
`(u|s|M|h|d|m|y)`.  Unlike `delta_chars`, it has no `'w'`. -/
def unitChars : List Char := ['u', 's', 'M', 'h', 'd', 'm', 'y']

/-- Numeric value of a digit string, as `int()` reads it. -/
def digitsVal (l : List Char) : ℕ :=
  l.foldl (fun n c => 10 * n + (c.toNat - Char.toNat '0')) 0

/-- Match of `^([0-9]+)(u|s|M|h|d|m|y)$` against an exact character list:
the last character must be a unit, the rest a nonempty digit run. -/
def deltaMatchCore (l : List Char) : Option (ℕ × Char) :=
  match l.getLast? with
  | none => none
  | some u =>
      let ds := l.dropLast
      if ds ≠ [] ∧ ds.all Char.isDigit ∧ u ∈ unitChars then some (digitsVal ds, u)
      else none

/-- `delta_regex.findall(s)`, reduced to its at most one match.  Python's
`$` anchor also matches just before one trailing newline, so a string with
a single trailing `'\n'` after a conforming token still matches. -/
def deltaFindall (s : String) : Option (ℕ × Char) :=
  match deltaMatchCore s.data with
  | some r => some r
  | none =>
      if s.data.getLast? = some '\n' then deltaMatchCore s.data.dropLast
      else none

/-- A `relativedelta(**{delta_chars[unit]: count})` value. -/
structure Relativedelta where
  unit : String
  count : ℕ
deriving DecidableEq, Repr

/-- `parse_delta(s)` of src/aggregate.py: `'all'` maps to the unbounded
marker (`none`); otherwise the string must match `delta_regex`, producing a
relativedelta; any other input raises `ValueError` (modelled as `.error`
carrying the exception message). -/
def parse_delta (s : String) : Except String (Option Relativedelta) :=
  if s = "all" then Except.ok none
  else
    match deltaFindall s with
    | some nu =>
        match delta_chars nu.2 with
        | some name => Except.ok (some ⟨name, nu.1⟩)
        | none => Except.error ("Invalid delta string: " ++ s)
    | none => Except.error ("Invalid delta string: " ++ s)

/-- The regex `^(([^_]+_){3})` consumes one field: a nonempty run of
non-underscore characters followed by `'_'`.  Returns the consumed part
(field plus underscore) and the remainder, or `none` when the input does
not start with such a field. -/
def fieldSplit (l : List Char) : Option (List Char × List Char) :=
  let run := l.takeWhile (fun c => decide (c ≠ '_'))
  if run = [] then none
  else
    match l.drop run.length with
    | '_' :: rest => some (run ++ ['_'], rest)
    | _ => none

/-- The full match of `^(([^_]+_){3})`: three consecutive fields. -/
def spacetimeMatch3 (l : List Char) : Option (List Char) :=
  match fieldSplit l with
  | none => none
  | some f1 =>
      match fieldSplit f1.2 with
      | none => none
      | some f2 =>
          match fieldSplit f2.2 with
          | none => none
          | some f3 => some (f1.1 ++ f2.1 ++ f3.1)

/-- `get_spacetime_prefix(column)` of src/aggregate.py (renamed here):
`spacetime_prefix_regex.findall(column)[0][0]`.  `none` models the
`IndexError` raised when the regex does not match and `findall` is empty. -/
def get_spacetime_pre (column : String) : Option String :=
  (spacetimeMatch3 column.data).map (fun l => String.mk l)

/-- Errors raised by the metrics functions of src/metrics.py. -/
inductive MErr where
  | lengthMismatch (a b : ℕ)
  | rangeError (k n : ℕ)
deriving DecidableEq, Repr

/-- A label paired with its score.  Labels are `Option ℚ` after `to_float`:
`none` is NaN (an unlabeled example). -/
def LPair : Type := Option ℚ × ℚ

/-- Score order on label/score pairs, the order `argsort` sorts by. -/
def scoreRel (p q : Option ℚ × ℚ) : Prop := p.2 ≤ q.2

instance : DecidableRel scoreRel := fun p q => inferInstanceAs (Decidable (p.2 ≤ q.2))

instance : IsTotal (Option ℚ × ℚ) scoreRel := ⟨fun p q => le_total p.2 q.2⟩

instance : IsTrans (Option ℚ × ℚ) scoreRel := ⟨fun _ _ _ h h2 => le_trans h h2⟩

/-- `y_score.argsort()` applied to label/score pairs: the pairs in ascending
score order (a stable sort stands in for numpy's unstable default sort). -/
def sortByScore (l : List (Option ℚ × ℚ)) : List (Option ℚ × ℚ) :=
  List.insertionSort scoreRel l

/-- `ranks[-k:]`: the pairs in the last `k` positions of the ascending sort,
i.e. a set of `k` highest-scoring pairs.  Only used with `k ≥ 1`, which the
source guarantees by returning early when `k == 0`. -/
def topSel (l : List (Option ℚ × ℚ)) (k : ℕ) : List (Option ℚ × ℚ) :=
  (sortByScore l).drop ((sortByScore l).length - k)

/-- The pairs whose label is not NaN (`~np.isnan(y_true)` applied to the
zipped sequences). -/
def labeledPairs (y_true : List (Option ℚ)) (y_score : List ℚ) :
    List (Option ℚ × ℚ) :=
  (y_true.zip y_score).filter (fun p => p.1.isSome)

/-- Sum of the labels of a pair list, NaN entries contributing nothing
(`y_true[top][labeled_top].sum()`). -/
def labelSum (l : List (Option ℚ × ℚ)) : ℚ :=
  (l.filterMap Prod.fst).sum

/-- Number of labeled pairs in a pair list (`labeled_top.sum()`). -/
def labeledCount (l : List (Option ℚ × ℚ)) : ℕ :=
  (l.filter (fun p => p.1.isSome)).length

/-- `top_k(y_true, y_score, k, extrapolate)` of src/metrics.py.  Returns the
pair `(n, d)`: the label sum over the selected top `k` and the divisor (the
labeled count of the top `k` when extrapolating, else `k` itself).  Raises
`ValueError` on a length mismatch, returns `(0, 0)` when `k == 0`, and
raises `ValueError` when not extrapolating and `k` exceeds the number of
labeled examples. -/
def top_k (y_true : List (Option ℚ)) (y_score : List ℚ) (k : ℕ)
    (extrapolate : Bool) : Except MErr (ℚ × ℕ) :=
  if y_true.length ≠ y_score.length then
    Except.error (MErr.lengthMismatch y_true.length y_score.length)
  else if k = 0 then Except.ok (0, 0)
  else if extrapolate then
    let top := topSel (y_true.zip y_score) k
    Except.ok (labelSum top, labeledCount top)
  else
    let lab := labeledPairs y_true y_score
    if k > lab.length then Except.error (MErr.rangeError k lab.length)
    else Except.ok (labelSum (topSel lab k), k)

/-- Result of `precision_at_k` (with `return_bounds=True`, its default): a
point precision when not extrapolating, and precision plus labeled count
plus `(lower, upper)` bounds when extrapolating.  `none` models NaN. -/
inductive PrecResult where
  | point (p : Option ℚ)
  | withBounds (p : Option ℚ) (d : ℕ) (bounds : Option ℚ × Option ℚ)
deriving DecidableEq, Repr

/-- `precision_at_k(y_true, y_score, k, extrapolate)` of src/metrics.py with
`return_bounds` left at its default `True`: `p = n/d` (NaN when `d == 0`),
and when extrapolating also the bounds `(n/k, (n+k-d)/k)` (NaN when
`k == 0`). -/
def precision_at_k (y_true : List (Option ℚ)) (y_score : List ℚ) (k : ℕ)
    (extrapolate : Bool) : Except MErr PrecResult :=
  match top_k y_true y_score k extrapolate with
  | Except.error e => Except.error e
  | Except.ok nd =>
      let n := nd.1
      let d := nd.2
      let p : Option ℚ := if d ≠ 0 then some (n / (d : ℚ)) else none
      if extrapolate then
        let bounds : Option ℚ × Option ℚ :=
          if k ≠ 0 then (some (n / (k : ℚ)), some ((n + (k : ℚ) - (d : ℚ)) / (k : ℚ)))
          else (none, none)
        Except.ok (PrecResult.withBounds p d bounds)
      else Except.ok (PrecResult.point p)

/-- A `Spacedeltas` value: one spatial-index column and the parsed windows. -/
structure Spacedeltas where
  spatial_index : String
  deltas : List (String × Option Relativedelta)
deriving DecidableEq, Repr

/-- A Python `AttributeError` on an object attribute. -/
inductive PyErr where
  | attributeError (obj attrName : String)
deriving DecidableEq, Repr

/-- One row of a long-format snapshot frame: entity id, date, spatial scope
name, window token, and the metric values. -/
structure LongRow where
  id : ℚ
  date : ℕ
  space : String
  delta : String
  vals : List (String × ℚ)
deriving DecidableEq, Repr

/-- The attribute state of a `SpacetimeAggregator` object.  `dtypes` is the
attribute that `read` consults for dtype restoration; `none` models an
attribute that was never assigned, so that reading it raises
`AttributeError`.  `pfx` is the source's `prefix` attribute. -/
structure SpacetimeAggregator where
  spacedeltas : List (String × Spacedeltas)
  pfx : String
  dates : List ℕ
  dirname : String
  filenames : List (ℕ × String)
  dtypes : Option (List (String × String))

/-- `SpacetimeAggregator.__init__(spacedeltas, dates, prefix, basedir)`:
assigns `spacedeltas`, `prefix`, `dates`, `dirname` and `filenames` — and
nothing else; in particular it never assigns `dtypes`.  Dates are modelled
as `yyyymmdd` naturals, matching the `strftime('%Y%m%d')` file naming. -/
def SpacetimeAggregator.init (sd : List (String × Spacedeltas)) (dates : List ℕ)
    (p basedir : String) : SpacetimeAggregator :=
  { spacedeltas := sd
    pfx := p
    dates := dates
    dirname := basedir ++ "/" ++ p
    filenames := dates.map (fun d => (d, basedir ++ "/" ++ p ++ "/" ++ toString d ++ ".hdf"))
    dtypes := none }

/-- The `(column, space, delta)` triples of `product(*df.columns.levels)`:
the cross product of the metric names, scopes and windows present in the
unioned long frame. -/
def pivotColumns (df : List LongRow) : List (String × String × String) :=
  let metrics := (df.map (fun r => r.vals.map Prod.fst)).flatten.dedup
  let spaces := (df.map (fun r => r.space)).dedup
  let deltas := (df.map (fun r => r.delta)).dedup
  metrics.flatMap (fun c => spaces.flatMap (fun s => deltas.map (fun d => (c, s, d))))

/-- The `(id, date)` index of the pivoted panel. -/
def panelIndex (df : List LongRow) : List (ℚ × ℕ) :=
  (df.map (fun r => (r.id, r.date))).dedup

/-- One cell of the pivoted panel: the value of metric/space/delta triple `c`
for entity `i` at date `dt`, missing when no snapshot row provides it. -/
def cellValue (df : List LongRow) (i : ℚ) (dt : ℕ)
    (c : String × String × String) : Option ℚ :=
  match df.find? (fun r =>
      decide (r.id = i) ∧ decide (r.date = dt) ∧ decide (r.space = c.2.1) ∧
      decide (r.delta = c.2.2)) with
  | some r => (r.vals.find? (fun v => decide (v.1 = c.1))).map Prod.snd
  | none => none

/-- The pivoted wide panel: its `(id, date)` index and its named columns. -/
structure Panel where
  idx : List (ℚ × ℕ)
  cols : List (String × List (Option ℚ))
deriving DecidableEq, Repr

/-- `SpacetimeAggregator.read(left=None, pivot)` of src/aggregate.py, with
the per-date snapshot store passed in as a function (the HDF files are
external storage).  `read_date` stamps each frame with its date; `read`
concatenates the frames and, when pivoting, unstacks to the wide panel and
then runs the dtype-restoration loop — which reads `self.dtypes`.  The
`astype` cast itself is modelled as the identity on the stored rationals
(its numeric coercion is not at issue in any claim); the renamed columns
follow `'{prefix}_{space}_{delta}_{column}'`. -/
def SpacetimeAggregator.read (a : SpacetimeAggregator)
    (snapshots : ℕ → List LongRow) (pivot : Bool) :
    Except PyErr (List LongRow ⊕ Panel) :=
  let df := (a.dates.map (fun d => (snapshots d).map (fun r => { r with date := d }))).flatten
  if pivot then
    let cols := pivotColumns df
    let idx := panelIndex df
    -- "unstack can mess with dtypes so set them back": the loop below is
    -- where the source reads self.dtypes
    match a.dtypes with
    | none => Except.error (PyErr.attributeError "SpacetimeAggregator" "dtypes")
    | some _ =>
        Except.ok (Sum.inr
          { idx := idx
            cols := cols.map (fun c =>
              (a.pfx ++ "_" ++ c.2.1 ++ "_" ++ c.2.2 ++ "_" ++ c.1,
               idx.map (fun p => cellValue df p.1 p.2 c))) })
  else Except.ok (Sum.inl df)

/-- A row with columns `x` and `w` (all other columns zero). -/
def rowXW (x w : ℚ) : Row :=
  fun c => if c = "x" then x else if c = "w" then w else 0

/-- A row with columns `g`, `x` and `w` (all other columns zero). -/
def rowGXW (g x w : ℚ) : Row :=
  fun c => if c = "g" then g else if c = "x" then x else if c = "w" then w else 0

/-- A row with a single date column `t` (all other columns zero). -/
def rowT (t : ℚ) : Row := fun c => if c = "t" then t else 0

/-- The aggregate spec `numerator='x'`, `denominator='w'`, `func='sum'`. -/
def aggXW : Agg := ⟨some "x", some "w", some AggFunc.sum, none⟩

/-- The two rows `(x=1, w=2), (x=3, w=0)` of testable property 4. -/
def dfXW : List Row := [rowXW 1 2, rowXW 3 0]

/-- Two rows in a single group `g=0`, with `x=1,3` and both `w=0`. -/
def dfGXW : List Row := [rowGXW 0 1 0, rowGXW 0 3 0]

/-- The labels `[1, 0, 1, nan]` of testable property 7. -/
def ytC7 : List (Option ℚ) := [some 1, some 0, some 1, none]

/-- The scores `[0.9, 0.1, 0.5, 0.4]` of testable property 7. -/
def ysC7 : List ℚ := [9/10, 1/10, 1/2, 2/5]

end Drain

namespace Drain

theorem string_data_append (a b : String) : (a ++ b).data = a.data ++ b.data := rfl

theorem string_eq_of_data (a b : String) (h : a.data = b.data) : a = b := by
  cases a
  cases b
  exact congrArg String.mk h

theorem data_ne_nil_of_ne_empty (p : String) (h : p ≠ "") : p.data ≠ [] := by
  intro h2
  apply h
  cases p with
  | mk l =>
      simp only [String.data] at h2
      subst h2
      rfl

/-- C1: the claim as written is false on the code.  With `index=None`,
`aggregate` performs no aggregation at all (`df3 = df2`), so on the two rows
`(x=1,w=2), (x=3,w=0)` it returns the per-row ratio column `[1/2, +inf]` —
two rows — not the single whole-table value `4/2 = 2.0`. -/
theorem aggregate_no_index_counterexample :
    (aggregate dfXW [("y", aggXW)] none none).2 =
      [("y", [PVal.val (1/2), PVal.pinf])] ∧
    (aggregate dfXW [("y", aggXW)] none none).2 ≠ [("y", [PVal.val 2])] := by
  norm_num +decide [aggregate, metricUngrouped, numeratorSeries, denominatorSeries,
    seriesOf, dfXW, aggXW, rowXW, pdiv]

/-- C1 (amended): with the `index` argument absent, `aggregate` skips
`groupby` entirely and returns one output row per input row, each holding
the per-row ratio of the numerator column over the denominator column. -/
theorem aggregate_no_index_per_row (df : List Row) (num den nm : String) :
    (aggregate df [(nm, ⟨some num, some den, some AggFunc.sum, none⟩)] none none).2 =
      [(nm, df.map (fun r => pdiv (r num) (r den)))] := by
  simp [aggregate, metricUngrouped, numeratorSeries, denominatorSeries, seriesOf,
    List.zip_map', List.map_map]

/-- C2: the claim as written is false on the code.  In a group whose
denominator aggregates to 0 but whose numerator aggregates to the nonzero
value 4, the output is `+inf` (pandas division semantics), not a missing
value. -/
theorem aggregate_zero_denominator_counterexample :
    (aggregate dfGXW [("y", aggXW)] none (some "g")).2 = [("y", [PVal.pinf])] ∧
    PVal.pinf ≠ PVal.nan := by
  refine ⟨?_, by simp⟩
  norm_num +decide [aggregate, metricGrouped, groupKeys, groupRows, aggFuncOf, denFuncOf,
    AggFunc.apply, numeratorSeries, denominatorSeries, seriesOf, dfGXW, rowGXW, aggXW,
    pdiv, List.dedup]

/-- C2 (amended): when a group's declared denominator aggregates to zero,
the output metric for that group is `+inf` if the aggregated numerator is
positive, `-inf` if it is negative, and a missing value only when the
aggregated numerator is also zero. -/
theorem aggregate_zero_denominator_group (df : List Row) (g num den nm : String)
    (k : ℚ) (_hk : k ∈ groupKeys df g)
    (hden : ((groupRows df g k).map (fun r => r den)).sum = 0) :
    (aggregate df [(nm, ⟨some num, some den, some AggFunc.sum, none⟩)] none (some g)).2 =
      [(nm, (groupKeys df g).map
        (metricGrouped df none g ⟨some num, some den, some AggFunc.sum, none⟩))] ∧
    metricGrouped df none g ⟨some num, some den, some AggFunc.sum, none⟩ k =
      (if 0 < ((groupRows df g k).map (fun r => r num)).sum then PVal.pinf
       else if ((groupRows df g k).map (fun r => r num)).sum < 0 then PVal.ninf
       else PVal.nan) := by
  constructor
  · rfl
  · simp only [metricGrouped, aggFuncOf, denFuncOf, AggFunc.apply, numeratorSeries,
      denominatorSeries, seriesOf, Option.getD]
    rw [hden]
    simp [pdiv]

/-- C2 witness: the amended statement applied to the concrete two-row group
with `x=(1,3)` and `w=(0,0)` under key `0`. -/
theorem aggregate_zero_denominator_group_witness :
    (aggregate dfGXW [("y", aggXW)] none (some "g")).2 =
      [("y", (groupKeys dfGXW "g").map
        (metricGrouped dfGXW none "g" ⟨some "x", some "w", some AggFunc.sum, none⟩))] ∧
    metricGrouped dfGXW none "g" ⟨some "x", some "w", some AggFunc.sum, none⟩ 0 =
      (if 0 < ((groupRows dfGXW "g" 0).map (fun r => r "x")).sum then PVal.pinf
       else if ((groupRows dfGXW "g" 0).map (fun r => r "x")).sum < 0 then PVal.ninf
       else PVal.nan) :=
  aggregate_zero_denominator_group dfGXW "g" "x" "w" "y" 0
    (by norm_num +decide [groupKeys, dfGXW, rowGXW, List.dedup])
    (by norm_num +decide [groupRows, dfGXW, rowGXW])

/-- C3: the claim is right and the code has a slip.  The code's own
`delta_chars` dict declares `'w'` as the weeks unit, but `delta_regex`
omits `w` from its alternation, so `parse_delta('3w')` raises `ValueError`
instead of returning a 3-week duration.  The remaining behaviour matches
the claim (`'3y'` parses, `'all'` is unbounded, `'3x'` and `''` fail);
additionally, Python's `$` matches before one trailing newline, so the
non-conforming string `'3y\n'` is also accepted. -/
theorem parse_delta_week_divergence :
    parse_delta "3w" = Except.error "Invalid delta string: 3w" ∧
    delta_chars 'w' = some "weeks" ∧
    parse_delta "3y" = Except.ok (some ⟨"years", 3⟩) ∧
    parse_delta "all" = Except.ok none ∧
    parse_delta "3x" = Except.error "Invalid delta string: 3x" ∧
    parse_delta "" = Except.error "Invalid delta string: " ∧
    parse_delta "3y\n" = Except.ok (some ⟨"years", 3⟩) :=
  ⟨rfl, rfl, rfl, rfl, rfl, rfl, rfl⟩

/-- C4: `censor` returns exactly the rows of the input satisfying
`end - W <= date < end` for a bounded window `W`, and exactly those with
`date < end` for the unbounded window; when no rows satisfy the bounded
range the result is the empty frame, not an error. -/
theorem censor_range (df : List Row) (c : String) (e d : ℚ) :
    (∀ r, r ∈ censor df c e (some d) ↔ r ∈ df ∧ (e - d ≤ r c ∧ r c < e)) ∧
    (∀ r, r ∈ censor df c e none ↔ r ∈ df ∧ r c < e) ∧
    ((∀ r ∈ df, ¬(e - d ≤ r c ∧ r c < e)) → censor df c e (some d) = []) := by
  have h1 : ∀ r, r ∈ censor df c e (some d) ↔ r ∈ df ∧ (e - d ≤ r c ∧ r c < e) := by
    intro r
    simp only [censor, List.mem_filter, decide_eq_true_eq]
    tauto
  refine ⟨h1, ?_, ?_⟩
  · intro r
    simp [censor, List.mem_filter]
  · intro h
    apply List.eq_nil_iff_forall_not_mem.mpr
    intro r hr
    exact h r ((h1 r).mp hr).1 ((h1 r).mp hr).2

/-- C4 witness: the range characterization at a concrete frame, and the
empty result on a frame whose single row lies outside the window. -/
theorem censor_range_witness :
    (rowT 5 ∈ censor [rowT 5, rowT 20] "t" 10 (some 3) ↔
      rowT 5 ∈ [rowT 5, rowT 20] ∧ (10 - 3 ≤ rowT 5 "t" ∧ rowT 5 "t" < 10)) ∧
    censor [rowT 20] "t" 10 (some 3) = [] :=
  ⟨(censor_range [rowT 5, rowT 20] "t" 10 3).1 (rowT 5),
   (censor_range [rowT 20] "t" 10 3).2.2 (by norm_num +decide [rowT])⟩

/-- C5: the claim is right about the intent and the code has a slip.  For
every aggregator built by `SpacetimeAggregator.__init__`, `read` with
`pivot=True` reaches the dtype-restoration loop ("unstack can mess with
dtypes so set them back") and reads `self.dtypes` — an attribute that
`__init__` never assigns — so the call raises `AttributeError` instead of
reapplying the declared dtypes. -/
theorem spacetime_read_pivot_attribute_error (sd : List (String × Spacedeltas))
    (dates : List ℕ) (p b : String) (snapshots : ℕ → List LongRow) :
    SpacetimeAggregator.read (SpacetimeAggregator.init sd dates p b) snapshots true =
      Except.error (PyErr.attributeError "SpacetimeAggregator" "dtypes") ∧
    (SpacetimeAggregator.init sd dates p b).dtypes = none := by
  exact ⟨rfl, rfl⟩

theorem sorted_sortByScore (l : List (Option ℚ × ℚ)) :
    List.Sorted scoreRel (sortByScore l) :=
  List.sorted_insertionSort scoreRel l

theorem length_sortByScore (l : List (Option ℚ × ℚ)) :
    (sortByScore l).length = l.length :=
  (List.perm_insertionSort scoreRel l).length_eq

theorem take_le_drop (l : List (Option ℚ × ℚ)) (m : ℕ) :
    ∀ q ∈ (sortByScore l).take m, ∀ p ∈ (sortByScore l).drop m, q.2 ≤ p.2 := by
  have hp : List.Pairwise scoreRel ((sortByScore l).take m ++ (sortByScore l).drop m) := by
    rw [List.take_append_drop]
    exact sorted_sortByScore l
  exact fun q hq p hp2 => (List.pairwise_append.mp hp).2.2 q hq p hp2

theorem length_topSel (l : List (Option ℚ × ℚ)) (k : ℕ) (hk : k ≤ l.length) :
    (topSel l k).length = k := by
  rw [topSel, List.length_drop, length_sortByScore, Nat.sub_sub_self hk]

/-- C10: whenever the label and score sequences have different lengths,
`top_k` — and therefore `precision_at_k` — fails with a `ValueError`
reporting the two lengths, for every `k` and every extrapolation mode,
before any ranking is attempted. -/
theorem length_mismatch_value_error (yt : List (Option ℚ)) (ys : List ℚ) (k : ℕ)
    (e : Bool) (h : yt.length ≠ ys.length) :
    top_k yt ys k e = Except.error (MErr.lengthMismatch yt.length ys.length) ∧
    precision_at_k yt ys k e = Except.error (MErr.lengthMismatch yt.length ys.length) := by
  constructor
  · simp [top_k, h]
  · simp [precision_at_k, top_k, h]

/-- C10 witness: a one-element label sequence against an empty score
sequence fails with the lengths 1 and 0, in both modes of `top_k` and of
`precision_at_k`. -/
theorem length_mismatch_value_error_witness :
    top_k [some 1] [] 2 false = Except.error (MErr.lengthMismatch 1 0) ∧
    precision_at_k [some 1] [] 2 false = Except.error (MErr.lengthMismatch 1 0) :=
  length_mismatch_value_error [some 1] [] 2 false (by decide)

/-- C6: with `extrapolate=False` and equal-length inputs, `precision_at_k`
restricts to the labeled pairs, errors exactly when `k` exceeds their
number, and otherwise returns the label sum of a selected `k`-element
subset of the labeled pairs divided by `k`, where every selected pair
scores at least as high as every non-selected labeled pair. -/
theorem precision_no_extrapolate_spec (yt : List (Option ℚ)) (ys : List ℚ) (k : ℕ)
    (h : yt.length = ys.length) (hk : 0 < k) :
    ((labeledPairs yt ys).length < k →
      precision_at_k yt ys k false =
        Except.error (MErr.rangeError k (labeledPairs yt ys).length)) ∧
    (k ≤ (labeledPairs yt ys).length →
      precision_at_k yt ys k false =
        Except.ok (PrecResult.point
          (some (labelSum (topSel (labeledPairs yt ys) k) / (k : ℚ)))) ∧
      (topSel (labeledPairs yt ys) k).length = k ∧
      ∀ p ∈ topSel (labeledPairs yt ys) k,
        ∀ q ∈ (sortByScore (labeledPairs yt ys)).take
            ((sortByScore (labeledPairs yt ys)).length - k),
          q.2 ≤ p.2) := by
  have hk0 : k ≠ 0 := Nat.pos_iff_ne_zero.mp hk
  constructor
  · intro hlt
    simp [precision_at_k, top_k, h, hk0, hlt]
  · intro hle
    have hnlt : ¬ (labeledPairs yt ys).length < k := not_lt.mpr hle
    refine ⟨?_, ?_, ?_⟩
    · simp [precision_at_k, top_k, h, hk0, hnlt]
    · exact length_topSel (labeledPairs yt ys) k hle
    · intro p hp q hq
      exact take_le_drop (labeledPairs yt ys) _ q hq p hp

/-- C6 witness: the specification instantiated at two labeled pairs with
`k = 1`. -/
theorem precision_no_extrapolate_spec_witness :
    (((labeledPairs [some 1, some 0] [1/2, 1/4]).length < 1 →
      precision_at_k [some 1, some 0] [1/2, 1/4] 1 false =
        Except.error (MErr.rangeError 1 (labeledPairs [some 1, some 0] [1/2, 1/4]).length)) ∧
    (1 ≤ (labeledPairs [some 1, some 0] [1/2, 1/4]).length →
      precision_at_k [some 1, some 0] [1/2, 1/4] 1 false =
        Except.ok (PrecResult.point
          (some (labelSum (topSel (labeledPairs [some 1, some 0] [1/2, 1/4]) 1) / (1 : ℚ)))) ∧
      (topSel (labeledPairs [some 1, some 0] [1/2, 1/4]) 1).length = 1 ∧
      ∀ p ∈ topSel (labeledPairs [some 1, some 0] [1/2, 1/4]) 1,
        ∀ q ∈ (sortByScore (labeledPairs [some 1, some 0] [1/2, 1/4])).take
            ((sortByScore (labeledPairs [some 1, some 0] [1/2, 1/4])).length - 1),
          q.2 ≤ p.2)) :=
  precision_no_extrapolate_spec [some 1, some 0] [1/2, 1/4] 1 rfl (by decide)

/-- C8: with `extrapolate=True` and equal-length inputs, `precision_at_k`
reports the bounds pair `(n/k, (n+k-d)/k)` where `n` is the label sum over
the selected top `k` and `d` the number of labeled pairs among them, while
`k = 0` yields missing bounds (and a missing precision), not zeros. -/
theorem precision_extrapolate_bounds (yt : List (Option ℚ)) (ys : List ℚ)
    (h : yt.length = ys.length) :
    precision_at_k yt ys 0 true =
      Except.ok (PrecResult.withBounds none 0 (none, none)) ∧
    ∀ k : ℕ, 0 < k →
      precision_at_k yt ys k true =
        Except.ok (PrecResult.withBounds
          (if labeledCount (topSel (yt.zip ys) k) ≠ 0 then
            some (labelSum (topSel (yt.zip ys) k) /
              (labeledCount (topSel (yt.zip ys) k) : ℚ))
           else none)
          (labeledCount (topSel (yt.zip ys) k))
          (some (labelSum (topSel (yt.zip ys) k) / (k : ℚ)),
           some ((labelSum (topSel (yt.zip ys) k) + (k : ℚ) -
              (labeledCount (topSel (yt.zip ys) k) : ℚ)) / (k : ℚ)))) := by
  constructor
  · simp [precision_at_k, top_k, h]
  · intro k hkpos
    have hk0 : k ≠ 0 := Nat.pos_iff_ne_zero.mp hkpos
    simp [precision_at_k, top_k, h, hk0]

/-- C8 witness: the bounds formula instantiated at a single labeled pair,
covering both the `k = 0` and the `k > 0` cases. -/
theorem precision_extrapolate_bounds_witness :
    (precision_at_k [some 1] [1/2] 0 true =
      Except.ok (PrecResult.withBounds none 0 (none, none)) ∧
    ∀ k : ℕ, 0 < k →
      precision_at_k [some 1] [1/2] k true =
        Except.ok (PrecResult.withBounds
          (if labeledCount (topSel ([some 1].zip [1/2]) k) ≠ 0 then
            some (labelSum (topSel ([some 1].zip [1/2]) k) /
              (labeledCount (topSel ([some 1].zip [1/2]) k) : ℚ))
           else none)
          (labeledCount (topSel ([some 1].zip [1/2]) k))
          (some (labelSum (topSel ([some 1].zip [1/2]) k) / (k : ℚ)),
           some ((labelSum (topSel ([some 1].zip [1/2]) k) + (k : ℚ) -
              (labeledCount (topSel ([some 1].zip [1/2]) k) : ℚ)) / (k : ℚ))))) :=
  precision_extrapolate_bounds [some 1] [1/2] rfl

/-- C7: on labels `[1, 0, 1, nan]` with scores `[0.9, 0.1, 0.5, 0.4]` and
`k = 2`, `precision_at_k` with `extrapolate=False` returns precision 1 (the
top 2 of the 3 labeled examples are the ones scoring 0.9 and 0.5, both
positive), and with `extrapolate=True` it returns the same precision 1 with
both bounds equal to 1, since both top-2 examples are labeled. -/
theorem precision_example_both_modes :
    precision_at_k ytC7 ysC7 2 false = Except.ok (PrecResult.point (some 1)) ∧
    precision_at_k ytC7 ysC7 2 true =
      Except.ok (PrecResult.withBounds (some 1) 2 (some 1, some 1)) := by
  constructor
  · norm_num +decide [precision_at_k, top_k, labeledPairs, topSel, sortByScore,
      List.insertionSort, List.orderedInsert, scoreRel, labelSum, labeledCount,
      List.filterMap_cons, ytC7, ysC7]
  · norm_num +decide [precision_at_k, top_k, labeledPairs, topSel, sortByScore,
      List.insertionSort, List.orderedInsert, scoreRel, labelSum, labeledCount,
      List.filterMap_cons, ytC7, ysC7]

theorem takeWhile_ne_append (f rest : List Char) (hf : ∀ c ∈ f, c ≠ '_') :
    (f ++ '_' :: rest).takeWhile (fun c => decide (c ≠ '_')) = f := by
  induction f with
  | nil => simp [List.takeWhile_cons]
  | cons a t ih =>
      have ha : a ≠ '_' := hf a (by simp)
      simp only [List.cons_append, List.takeWhile_cons,
        ih (fun c hc => hf c (by simp [hc]))]
      simp [ha]

theorem fieldSplit_append (f rest : List Char) (hne : f ≠ [])
    (hf : ∀ c ∈ f, c ≠ '_') :
    fieldSplit (f ++ '_' :: rest) = some (f ++ ['_'], rest) := by
  simp only [fieldSplit, takeWhile_ne_append f rest hf]
  simp [hne, List.drop_left]

theorem spacetimeMatch3_append (p s d m : List Char) (hp : p ≠ []) (hs : s ≠ [])
    (hd : d ≠ []) (hpc : ∀ c ∈ p, c ≠ '_') (hsc : ∀ c ∈ s, c ≠ '_')
    (hdc : ∀ c ∈ d, c ≠ '_') :
    spacetimeMatch3 (p ++ '_' :: (s ++ '_' :: (d ++ '_' :: m))) =
      some (p ++ '_' :: (s ++ '_' :: (d ++ ['_']))) := by
  simp [spacetimeMatch3, fieldSplit_append p _ hp hpc, fieldSplit_append s _ hs hsc,
    fieldSplit_append d _ hd hdc]

/-- C9: the claim as written is false on the code: it only requires the
three leading fields to be underscore-free, but the regex `([^_]+_){3}`
also requires each to be nonempty.  With the empty prefix, the generated
column name `_a_b_m` does not match, `findall` returns no match, and the
source raises `IndexError` instead of returning `'_a_b_'`. -/
theorem spacetime_pre_counterexample :
    get_spacetime_pre ("" ++ "_" ++ "a" ++ "_" ++ "b" ++ "_" ++ "m") = none ∧
    get_spacetime_pre "_a_b_m" ≠ some "_a_b_" := by
  constructor <;> decide

/-- C9 (amended): for every prefix, space, delta and metric in which
prefix, space and delta are nonempty and contain no underscore, the prefix
parser applied to the generated column name
`{prefix}_{space}_{delta}_{metric}` returns `{prefix}_{space}_{delta}_`. -/
theorem spacetime_pre_round_trip (p s d m : String)
    (hp : p ≠ "") (hs : s ≠ "") (hd : d ≠ "")
    (hpc : ∀ c ∈ p.data, c ≠ '_') (hsc : ∀ c ∈ s.data, c ≠ '_')
    (hdc : ∀ c ∈ d.data, c ≠ '_') :
    get_spacetime_pre (p ++ "_" ++ s ++ "_" ++ d ++ "_" ++ m) =
      some (p ++ "_" ++ s ++ "_" ++ d ++ "_") := by
  have hdata : (p ++ "_" ++ s ++ "_" ++ d ++ "_" ++ m).data =
      p.data ++ '_' :: (s.data ++ '_' :: (d.data ++ '_' :: m.data)) := by
    simp [string_data_append, List.append_assoc]
  simp only [get_spacetime_pre, hdata]
  rw [spacetimeMatch3_append p.data s.data d.data m.data
    (data_ne_nil_of_ne_empty p hp) (data_ne_nil_of_ne_empty s hs)
    (data_ne_nil_of_ne_empty d hd) hpc hsc hdc]
  simp only [Option.map_some']
  refine congrArg some (string_eq_of_data _ _ ?_)
  simp [string_data_append, List.append_assoc]

/-- C9 witness: the amended round trip at the concrete column name
`pre_sp_3y_met`. -/
theorem spacetime_pre_round_trip_witness :
    get_spacetime_pre ("pre" ++ "_" ++ "sp" ++ "_" ++ "3y" ++ "_" ++ "met") =
      some ("pre" ++ "_" ++ "sp" ++ "_" ++ "3y" ++ "_") :=
  spacetime_pre_round_trip "pre" "sp" "3y" "met" (by decide) (by decide) (by decide)
    (by decide) (by decide) (by decide)

end Drain
